import Mathlib

/-!
Verification of the Python node printer (`src/printer-python.js`).

The printer is a recursive pure function from (current AST node, traversal
path) to a "document" tree that an external layout engine renders.  We embed
the JavaScript source shallowly:

* `PyVal` models the dynamically-typed JavaScript values the printer
  manipulates: `null`/`undefined` (conflated as `PyVal.null`), strings,
  numbers (restricted to integers — no claim touches float formatting),
  booleans, arrays, and AST-node objects carrying an `ast_type` discriminant
  string plus a field table.
* `Doc` models the external document primitives (`doc-builders`): literal
  text, `concat`, `group`, `indent`, `hardline`, `line`, `softline`,
  `ifBreak`.
* `genericPrint parent n` is the printer; the `path` object of the source is
  represented by passing the current node (which becomes the parent of every
  child that is printed) plus the node to print.  Fallible execution is an
  `Except`: the single `throw` in the source becomes `Except.error`.
-/

/-- A dynamically-typed JavaScript value as seen by the printer.
`null` stands for both JS `null` and `undefined`. -/
inductive PyVal where
  | null
  | vstr (s : String)
  | vint (i : Int)
  | vbool (b : Bool)
  | vlist (elts : List PyVal)
  | vnode (astType : String) (fields : List (String × PyVal))

/-- Property lookup in an object's field table (first binding wins; the
embedding only ever constructs tables with distinct keys). A missing key is
JS `undefined`, i.e. `PyVal.null`. -/
def lookupField : List (String × PyVal) → String → PyVal
  | [], _ => .null
  | (k', v) :: fs, k => if k' = k then v else lookupField fs k

/-- JS property access `n[k]`: `undefined` on non-objects and missing keys. -/
def getField : PyVal → String → PyVal
  | .vnode _ fs, k => lookupField fs k
  | _, _ => .null

/-- Reading `n.ast_type`: the discriminant tag of a node, `""` standing for
the `undefined` tag of a non-node value (`undefined != "arg"` holds in JS,
and `"" ≠ "arg"` holds here, which is the only way tags of non-nodes are
used). -/
def astTypeD : PyVal → String
  | .vnode t _ => t
  | _ => ""

/-- View of a value as a JS array (the printer only iterates fields that are
arrays in well-formed ASTs). -/
def asList : PyVal → List PyVal
  | .vlist xs => xs
  | _ => []

/-- View of a value as a string (raw string fields such as `n.id`, `n.attr`,
`n.name`, `n.arg`; these are strings in well-formed ASTs). -/
def asStr : PyVal → String
  | .vstr s => s
  | _ => ""

/-- View of a value as a number (`col_offset` fields). -/
def asInt : PyVal → Int
  | .vint i => i
  | _ => 0

/-- JS truthiness, used by `if (n.vararg)` and `if (n.kwarg)`. -/
def truthy : PyVal → Bool
  | .null => false
  | .vstr s => s ≠ ""
  | .vint i => i ≠ 0
  | .vbool b => b
  | .vlist _ => true
  | .vnode _ _ => true

/-- JS template-literal coercion, used to render the fields `n.n` and
`n.value` as text.  Composite values never occur in the coerced fields of
well-formed ASTs; they are given placeholder renderings. -/
def jsTemplate : PyVal → String
  | .vstr s => s
  | .vint i => toString i
  | .vbool b => if b then "true" else "false"
  | .null => "null"
  | .vlist _ => ""
  | .vnode _ _ => "[object Object]"

/-- Reading `x.col_offset` as a number, the sort key of the argument
merger. -/
def colOffset (v : PyVal) : Int := asInt (getField v "col_offset")

/-- The ordering the comparator `(a, b) => a.col_offset - b.col_offset`
induces. -/
def colLe (a b : PyVal) : Prop := colOffset a ≤ colOffset b

/-- Strict version of `colLe`, used to characterise inputs whose column
offsets are pairwise distinct. -/
def colLt (a b : PyVal) : Prop := colOffset a < colOffset b

instance : DecidableRel colLe := fun a b => Int.decLe _ _

instance : DecidableRel colLt := fun a b => Int.decLt _ _

instance : IsTotal PyVal colLe := ⟨fun a b => Int.le_total _ _⟩

instance : IsTrans PyVal colLe := ⟨fun _ _ _ h h' => le_trans h h'⟩

instance : IsAntisymm PyVal colLt :=
  ⟨fun _ _ h h' => absurd h' (not_lt_of_gt h)⟩

/-- `[...n[argsKey], ...n[defaultsKey]].sort((a, b) => a.col_offset -
b.col_offset)`: ECMAScript `Array.prototype.sort` is a stable ascending sort
for this comparator, which the stable `List.insertionSort` realises. -/
def sortByCol (l : List PyVal) : List PyVal := List.insertionSort colLe l

/- ### Document fragments (`doc-builders`, an external collaborator) -/

/-- Modelled from the spec: the abstract document primitives of the external
layout engine (`doc-builders` is outside `src/`): literal text,
concatenation, grouping, indentation, a mandatory break, a breakable space,
a breakable-with-no-space, and a conditional fragment. -/
inductive Doc where
  | text (s : String)
  | concat (parts : List Doc)
  | group (d : Doc)
  | indent (d : Doc)
  | hardline
  | line
  | softline
  | ifBreak (breakContents flatContents : Doc)

/-- Modelled from the spec: `doc-builders`' `join(sep, arr)` concatenates the
items with the separator between consecutive items. -/
def join (sep : Doc) (ds : List Doc) : Doc := .concat (ds.intersperse sep)

/-- Modelled from the spec: the external engine's *flat* rendering of a
fragment (the layout where no group breaks): `line` renders as a space,
`softline` as nothing, `ifBreak` as its flat contents; `group` and `indent`
are transparent. -/
def flatten : Doc → String
  | .text s => s
  | .concat ds => flattenList ds
  | .group d => flatten d
  | .indent d => flatten d
  | .hardline => "\n"
  | .line => " "
  | .softline => ""
  | .ifBreak _ f => flatten f
where
  /-- Flat rendering of a list of fragments, in order. -/
  flattenList : List Doc → String
  | [] => ""
  | d :: ds => flatten d ++ flattenList ds

/- ### Errors -/

/-- The single error kind of the printer: the `default:` case of the
dispatch throws `new Error("unknown python type: " + ...)` carrying the
unknown tag (`none` models the `undefined` tag of a non-node value). -/
inductive PrintError where
  | unsupportedNodeKind (tag : Option String)

/- ### The argument merger (`printArguments`) -/

/-- The loop of `printArguments`: walk the merged (sorted) sequence with two
independent cursors `currentArgument`/`currentDefault`; at each step print
the next parameter (`path.call(print, argsKey, currentArgument)`), and if
the upcoming merged element exists and its tag is not `"arg"`, additionally
print `"="` and the next default, skipping that element.  `prArg`/`prDef`
print the element of the parameter/default list at a given index (an
out-of-range index is JS `undefined`, which prints as `""`). -/
def mergeWalk (prArg prDef : Nat → Except PrintError Doc) :
    List PyVal → Nat → Nat → Except PrintError (List Doc)
  | [], _, _ => .ok []
  | [_], ca, _ => do
    let a ← prArg ca
    return [Doc.concat [a]]
  | _ :: next :: rest, ca, cd =>
    if astTypeD next ≠ "arg" then do
      let a ← prArg ca
      let d ← prDef cd
      let parts ← mergeWalk prArg prDef rest (ca + 1) (cd + 1)
      return Doc.concat [a, Doc.text "=", d] :: parts
    else do
      let a ← prArg ca
      let parts ← mergeWalk prArg prDef (next :: rest) (ca + 1) cd
      return Doc.concat [a] :: parts

/-- `printArguments(print, path, argsKey, defaultsKey)`: merge the parameter
and default lists, sort by column offset, and walk with two cursors. -/
def printArguments (prArg prDef : Nat → Except PrintError Doc)
    (args defaults : List PyVal) : Except PrintError (List Doc) :=
  mergeWalk prArg prDef (sortByCol (args ++ defaults)) 0 0

/- ### Size lemmas for the recursion -/

theorem sizeOf_lookupField_lt (fs : List (String × PyVal)) (k : String) :
    sizeOf (lookupField fs k) < 1 + sizeOf fs := by
  induction fs with
  | nil => simp [lookupField]
  | cons p fs ih =>
    obtain ⟨k', v⟩ := p
    simp only [lookupField]
    split
    · simp
      omega
    · simp
      omega

theorem sizeOf_getField_lt (t : String) (fs : List (String × PyVal)) (k : String) :
    sizeOf (getField (PyVal.vnode t fs) k) < sizeOf (PyVal.vnode t fs) := by
  have h := sizeOf_lookupField_lt fs k
  simp only [getField]
  simp
  omega

theorem sizeOf_mem_asList_lt {x v : PyVal} (h : x ∈ asList v) : sizeOf x < sizeOf v := by
  cases v <;> simp [asList] at h
  case vlist xs =>
    have := List.sizeOf_lt_of_mem h
    simp
    omega

theorem sizeOf_asList_le (v : PyVal) : sizeOf (asList v) ≤ sizeOf v := by
  cases v <;> simp [asList] <;> omega

theorem sizeOf_asList_field_lt (t : String) (fs : List (String × PyVal)) (k : String) :
    sizeOf (asList (getField (PyVal.vnode t fs) k)) < sizeOf (PyVal.vnode t fs) :=
  lt_of_le_of_lt (sizeOf_asList_le _) (sizeOf_getField_lt t fs k)

theorem sizeOf_list_pos (fs : List (String × PyVal)) : 0 < sizeOf fs := by
  cases fs <;> simp <;> omega

theorem sizeOf_getD_field_lt (t : String) (fs : List (String × PyVal)) (k : String) (i : Nat) :
    sizeOf ((asList (getField (PyVal.vnode t fs) k)).getD i PyVal.null) <
      sizeOf (PyVal.vnode t fs) := by
  have hfs := sizeOf_list_pos fs
  rcases h : (asList (getField (PyVal.vnode t fs) k))[i]? with _ | x
  · rw [List.getD_eq_getElem?_getD, h, Option.getD_none]
    simp
    omega
  · have hm : x ∈ asList (getField (PyVal.vnode t fs) k) := List.getElem?_mem h
    rw [List.getD_eq_getElem?_getD, h, Option.getD_some]
    exact lt_trans (sizeOf_mem_asList_lt hm) (sizeOf_getField_lt t fs k)

/- ### The node printer (`genericPrint`) -/

mutual

/-- `genericPrint(path, options, print)` of the source: dispatch on the
current node.  `parent` is what `path.getParentNode()` returns; every child
is printed with the current node as its parent. -/
def genericPrint (parent n : PyVal) : Except PrintError Doc :=
  match n with
  | .null => .ok (.text "")
  | .vstr s => .ok (.text s)
  | .vint i => if i = 0 then .ok (.text "") else .error (.unsupportedNodeKind none)
  | .vbool b => if b then .error (.unsupportedNodeKind none) else .ok (.text "")
  | .vlist _ => .error (.unsupportedNodeKind none)
  | .vnode astTy fields =>
    let nn := PyVal.vnode astTy fields
    if astTy = "Module" then do
      let body ← printList nn (asList (getField nn "body"))
      return Doc.concat [join (Doc.concat [Doc.hardline, Doc.hardline]) body, Doc.hardline]
    else if astTy = "FunctionDef" then do
      let name ← genericPrint nn (getField nn "name")
      let args ← genericPrint nn (getField nn "args")
      let body ← printList nn (asList (getField nn "body"))
      return Doc.concat [Doc.text "def ", name,
        Doc.group (Doc.concat [Doc.text "(",
          Doc.indent (Doc.concat [Doc.softline, args]), Doc.softline, Doc.text ")"]),
        Doc.text ":", Doc.indent (Doc.concat [Doc.line, Doc.concat body])]
    else if astTy = "arguments" then do
      let args := asList (getField nn "args")
      let defaults := asList (getField nn "defaults")
      let parts ← printArguments (fun i => genericPrint nn (args.getD i .null))
        (fun i => genericPrint nn (defaults.getD i .null)) args defaults
      let parts ←
        if truthy (getField nn "vararg") then do
          let v ← genericPrint nn (getField nn "vararg")
          pure (parts ++ [Doc.concat [Doc.text "*", v]])
        else pure parts
      let kwonlyargs := asList (getField nn "kwonlyargs")
      let parts ←
        if kwonlyargs.length > 0 then do
          let kwDefaults := asList (getField nn "kw_defaults")
          let kws ← printArguments (fun i => genericPrint nn (kwonlyargs.getD i .null))
            (fun i => genericPrint nn (kwDefaults.getD i .null)) kwonlyargs kwDefaults
          pure (parts ++ [Doc.text "*"] ++ kws)
        else pure parts
      let parts ←
        if truthy (getField nn "kwarg") then do
          let kw ← genericPrint nn (getField nn "kwarg")
          pure (parts ++ [Doc.concat [Doc.text "**", kw]])
        else pure parts
      return join (Doc.concat [Doc.text ", ", Doc.softline]) parts
    else if astTy = "arg" then
      .ok (.text (asStr (getField nn "arg")))
    else if astTy = "Expr" then
      genericPrint nn (getField nn "value")
    else if astTy = "Call" then do
      let args ← printList nn (asList (getField nn "args"))
      return Doc.concat [Doc.text (asStr (getField (getField nn "func") "id")),
        Doc.text "(", join (Doc.text ", ") args, Doc.text ")"]
    else if astTy = "Str" then
      .ok (.text ("\"" ++ jsTemplate (getField nn "s") ++ "\""))
    else if astTy = "Num" then
      genericPrint nn (getField nn "n")
    else if astTy = "float" then
      .ok (.text (jsTemplate (getField nn "n")))
    else if astTy = "int" then
      .ok (.text (jsTemplate (getField nn "n")))
    else if astTy = "Name" then
      .ok (.text (asStr (getField nn "id")))
    else if astTy = "NameConstant" then
      .ok (.text (jsTemplate (getField nn "value")))
    else if astTy = "For" then do
      let target ← genericPrint nn (getField nn "target")
      let iter ← genericPrint nn (getField nn "iter")
      let body ← printList nn (asList (getField nn "body"))
      let parts := [Doc.text "for ", target, Doc.text " in ", iter, Doc.text ":",
        Doc.indent (Doc.concat [Doc.line, Doc.concat body])]
      if (asList (getField nn "orelse")).length > 0 then do
        let orelse ← printList nn (asList (getField nn "orelse"))
        return Doc.concat (parts ++ [Doc.line, Doc.text "else:",
          Doc.indent (Doc.concat [Doc.line, Doc.concat orelse])])
      else
        return Doc.concat parts
    else if astTy = "Tuple" then do
      let elts ← printList nn (asList (getField nn "elts"))
      let joined := join (Doc.text ", ") elts
      if ["List", "Tuple"].contains (astTypeD parent) then
        return Doc.concat [Doc.text "(", joined, Doc.text ")"]
      else
        return joined
    else if astTy = "List" then do
      let elts ← printList nn (asList (getField nn "elts"))
      return Doc.concat [Doc.text "[", join (Doc.text ", ") elts, Doc.text "]"]
    else if astTy = "Assign" then do
      let targets ← printList nn (asList (getField nn "targets"))
      let value ← genericPrint nn (getField nn "value")
      return Doc.concat [join (Doc.text ", ") targets, Doc.text " = ", value]
    else if astTy = "AugAssign" then do
      let target ← genericPrint nn (getField nn "target")
      let op ← genericPrint nn (getField nn "op")
      let value ← genericPrint nn (getField nn "value")
      return Doc.concat [target, Doc.text " ", op, Doc.text "= ", value]
    else if astTy = "Dict" then do
      let keys ← printList nn (asList (getField nn "keys"))
      let values ← printList nn (asList (getField nn "values"))
      let pairs := keys.enum.map fun p =>
        Doc.concat [Doc.softline, p.2, Doc.text ": ", values.getD p.1 (Doc.text "")]
      return Doc.concat [Doc.text "\x7b", Doc.indent (join (Doc.text ",") pairs),
        Doc.softline, Doc.text "\x7d"]
    else if astTy = "ClassDef" then do
      let bases ←
        if (asList (getField nn "bases")).length > 0 then do
          let bs ← printList nn (asList (getField nn "bases"))
          pure [Doc.text "(", join (Doc.text ",") bs, Doc.text ")"]
        else pure ([] : List Doc)
      let body ← printList nn (asList (getField nn "body"))
      return Doc.concat [Doc.text "class ", Doc.text (asStr (getField nn "name")),
        Doc.concat bases, Doc.text ":", Doc.indent (Doc.concat [Doc.line, Doc.concat body])]
    else if astTy = "Attribute" then do
      let value ← genericPrint nn (getField nn "value")
      return Doc.concat [value, Doc.text ".", Doc.text (asStr (getField nn "attr"))]
    else if astTy = "Add" then .ok (.text "+")
    else if astTy = "Sub" then .ok (.text "-")
    else if astTy = "Mult" then .ok (.text "*")
    else if astTy = "MatMult" then .ok (.text "@")
    else if astTy = "Div" then .ok (.text "/")
    else if astTy = "FloorDiv" then .ok (.text "//")
    else if astTy = "Mod" then .ok (.text "%")
    else if astTy = "Pow" then .ok (.text "**")
    else if astTy = "LShift" then .ok (.text "<<")
    else if astTy = "RShift" then .ok (.text ">>")
    else if astTy = "BitAnd" then .ok (.text "&")
    else if astTy = "BitXor" then .ok (.text "^")
    else if astTy = "BitOr" then .ok (.text "|")
    else if astTy = "Compare" then do
      let ops ← printList nn (asList (getField nn "ops"))
      let comparators ← printList nn (asList (getField nn "comparators"))
      let left ← genericPrint nn (getField nn "left")
      let pairs := ops.enum.map fun p =>
        Doc.concat [Doc.text " ", p.2, Doc.text " ", comparators.getD p.1 (Doc.text "")]
      return Doc.concat (left :: pairs)
    else if astTy = "Lt" then .ok (.text "<")
    else if astTy = "LtE" then .ok (.text "<=")
    else if astTy = "Gt" then .ok (.text ">")
    else if astTy = "GtE" then .ok (.text ">=")
    else if astTy = "Eq" then .ok (.text "==")
    else if astTy = "NotEq" then .ok (.text "!=")
    else
      .error (.unsupportedNodeKind (some astTy))
termination_by sizeOf n
decreasing_by
  all_goals first
    | exact sizeOf_asList_field_lt _ _ _
    | exact sizeOf_getField_lt _ _ _
    | exact sizeOf_getD_field_lt _ _ _ _
    | (simp_wf
       first
         | exact sizeOf_asList_field_lt _ _ _
         | exact sizeOf_getField_lt _ _ _
         | exact sizeOf_getD_field_lt _ _ _ _
         | omega)

/-- `path.map(print, key)`: print the elements of an array field in order,
each with the current node as parent; an error in any child propagates. -/
def printList (parent : PyVal) : List PyVal → Except PrintError (List Doc)
  | [] => .ok []
  | x :: xs => do
    let d ← genericPrint parent x
    let ds ← printList parent xs
    return d :: ds
termination_by xs => sizeOf xs
decreasing_by
  all_goals (simp_wf; try omega)

end

/-- The tags the dispatch of `genericPrint` supports (the `case` labels of
the `switch`). -/
def supportedTags : List String :=
  ["Module", "FunctionDef", "arguments", "arg", "Expr", "Call", "Str", "Num",
   "float", "int", "Name", "NameConstant", "For", "Tuple", "List", "Assign",
   "AugAssign", "Dict", "ClassDef", "Attribute", "Add", "Sub", "Mult",
   "MatMult", "Div", "FloorDiv", "Mod", "Pow", "LShift", "RShift", "BitAnd",
   "BitXor", "BitOr", "Compare", "Lt", "LtE", "Gt", "GtE", "Eq", "NotEq"]

/- ### Characterising the argument merger -/

/-- The interleaving in which parameter `N-K+j` is immediately followed by
default `j`: the source order of a parameter list whose trailing parameters
carry the defaults. -/
def pairUp : List PyVal → List PyVal → List PyVal
  | a :: as, d :: ds => a :: d :: pairUp as ds
  | as, [] => as
  | [], ds => ds

theorem pairUp_perm : ∀ (as ds : List PyVal), List.Perm (pairUp as ds) (as ++ ds)
  | [], [] => by simp only [pairUp, List.nil_append]; exact List.Perm.refl _
  | [], _ :: _ => by simp only [pairUp, List.nil_append]; exact List.Perm.refl _
  | _ :: _, [] => by simp only [pairUp, List.append_nil]; exact List.Perm.refl _
  | a :: as, d :: ds => by
    simp only [pairUp, List.cons_append]
    refine List.Perm.cons a ?_
    exact ((pairUp_perm as ds).cons d).trans List.perm_middle.symm

/-- The sort of the argument merger is determined on inputs whose column
offsets are pairwise distinct: it returns the unique `colLt`-sorted
permutation. -/
theorem sortByCol_eq_of_sorted (l M : List PyVal) (hperm : List.Perm l M)
    (hM : M.Pairwise colLt) : sortByCol l = M := by
  have hp : List.Perm (sortByCol l) M := (List.perm_insertionSort colLe l).trans hperm
  have hsle : (sortByCol l).Pairwise colLe := List.sorted_insertionSort colLe l
  have hne_M : M.Pairwise (fun a b => colOffset a ≠ colOffset b) :=
    hM.imp fun h => ne_of_lt h
  have hne : (sortByCol l).Pairwise (fun a b => colOffset a ≠ colOffset b) :=
    (hp.pairwise_iff fun h => h.symm).mpr hne_M
  have hlt : (sortByCol l).Pairwise colLt :=
    (hsle.and hne).imp fun h => lt_of_le_of_ne h.1 h.2
  exact List.eq_of_perm_of_sorted hp hlt hM

@[simp] theorem exceptOkBind {ε α β : Type} (a : α) (f : α → Except ε β) :
    (Except.ok a : Except ε α) >>= f = f a := rfl

@[simp] theorem exceptErrorBind {ε α β : Type} (e : ε) (f : α → Except ε β) :
    (Except.error e : Except ε α) >>= f = Except.error e := rfl

@[simp] theorem exceptPureEq {ε α : Type} (a : α) :
    (pure a : Except ε α) = Except.ok a := rfl

@[simp] theorem exceptMapOk {ε α β : Type} (f : α → β) (a : α) :
    Except.map f (Except.ok a : Except ε α) = Except.ok (f a) := rfl

@[simp] theorem exceptMapError {ε α β : Type} (f : α → β) (e : ε) :
    Except.map f (Except.error e : Except ε α) = Except.error e := rfl

/-- Splitting off a run of parameter-tagged elements at the front of the
merged sequence: each step of the walk prints the next parameter unpaired,
because the upcoming element is parameter-tagged (or absent). -/
theorem mergeWalk_args_front (A D : Nat → Doc) :
    ∀ (ps rest : List PyVal) (ca cd : Nat),
      (∀ x ∈ ps, astTypeD x = "arg") →
      (∀ x, rest.head? = some x → astTypeD x = "arg") →
      mergeWalk (fun i => .ok (A i)) (fun i => .ok (D i)) (ps ++ rest) ca cd =
        Except.map
          (fun tail => (List.range ps.length).map (fun j => Doc.concat [A (ca + j)]) ++ tail)
          (mergeWalk (fun i => .ok (A i)) (fun i => .ok (D i)) rest (ca + ps.length) cd)
  | [], rest, ca, cd, _, _ => by
    cases h : mergeWalk (fun i => .ok (A i)) (fun i => .ok (D i)) rest (ca + 0) cd <;>
      simp_all
  | p :: ps, rest, ca, cd, hps, hrest => by
    rcases hqr : ps ++ rest with _ | ⟨q, qs⟩
    · obtain ⟨hps0, hrest0⟩ := List.append_eq_nil.mp hqr
      subst hps0
      subst hrest0
      have hr1 : List.range 1 = [0] := rfl
      simp [mergeWalk, hr1]
    · have hq : astTypeD q = "arg" := by
        cases ps with
        | nil =>
          refine hrest q ?_
          rw [List.nil_append] at hqr
          simp [hqr]
        | cons p' ps' =>
          have hqp : p' = q := by
            rw [List.cons_append] at hqr
            exact (List.cons.injEq _ _ _ _ ▸ hqr).1
          exact hqp ▸ hps p' (by simp)
      have step :
          mergeWalk (fun i => .ok (A i)) (fun i => .ok (D i)) ((p :: ps) ++ rest) ca cd =
            Except.map (fun parts => Doc.concat [A ca] :: parts)
              (mergeWalk (fun i => .ok (A i)) (fun i => .ok (D i)) (ps ++ rest) (ca + 1) cd) := by
        rw [List.cons_append, hqr]
        simp only [mergeWalk]
        rw [if_neg (by simp [hq])]
        rw [← hqr]
        cases mergeWalk (fun i => .ok (A i)) (fun i => .ok (D i)) (ps ++ rest) (ca + 1) cd <;>
          simp
      have harith : ca + (p :: ps).length = ca + 1 + ps.length := by
        simp only [List.length_cons]
        omega
      rw [step,
        mergeWalk_args_front A D ps rest (ca + 1) cd
          (fun x hx => hps x (List.mem_cons_of_mem _ hx)) hrest,
        harith]
      have hfun : ((fun j => Doc.concat [A (ca + j)]) ∘ Nat.succ) =
          fun j => Doc.concat [A (ca + 1 + j)] := by
        funext j
        simp only [Function.comp_apply]
        have h1 : ca + Nat.succ j = ca + 1 + j := by omega
        rw [h1]
      cases mergeWalk (fun i => .ok (A i)) (fun i => .ok (D i)) rest (ca + 1 + ps.length) cd with
      | error e => simp
      | ok tail =>
        simp only [exceptMapOk, List.length_cons]
        rw [List.range_succ_eq_map, List.map_cons, List.map_map, hfun, Nat.add_zero,
          List.cons_append]
        simp

/-- The paired section of the merged sequence: parameters interleaved with
their defaults; each step of the walk pairs the next parameter with the next
default, because the upcoming element is default-tagged. -/
theorem mergeWalk_pairs (A D : Nat → Doc) :
    ∀ (as ds : List PyVal) (ca cd : Nat),
      as.length = ds.length →
      (∀ x ∈ ds, astTypeD x ≠ "arg") →
      mergeWalk (fun i => .ok (A i)) (fun i => .ok (D i)) (pairUp as ds) ca cd =
        .ok ((List.range as.length).map fun j =>
          Doc.concat [A (ca + j), Doc.text "=", D (cd + j)])
  | [], [], ca, cd, _, _ => by simp [pairUp, mergeWalk]
  | [], _ :: _, _, _, hlen, _ => by simp at hlen
  | _ :: _, [], _, _, hlen, _ => by simp at hlen
  | a :: as, d :: ds, ca, cd, hlen, hds => by
    simp only [pairUp, mergeWalk]
    rw [if_pos (hds d (by simp))]
    rw [mergeWalk_pairs A D as ds (ca + 1) (cd + 1) (by simpa using hlen)
      (fun x hx => hds x (by simp [hx]))]
    simp only [exceptOkBind, exceptPureEq, List.length_cons]
    have hfun : ((fun j => Doc.concat [A (ca + j), Doc.text "=", D (cd + j)]) ∘ Nat.succ) =
        fun j => Doc.concat [A (ca + 1 + j), Doc.text "=", D (cd + 1 + j)] := by
      funext j
      simp only [Function.comp_apply]
      have h1 : ca + Nat.succ j = ca + 1 + j := by omega
      have h2 : cd + Nat.succ j = cd + 1 + j := by omega
      rw [h1, h2]
    rw [List.range_succ_eq_map, List.map_cons, List.map_map, hfun, Nat.add_zero]
    simp

/-- Full behaviour of the argument merger on a well-ordered parameter list:
with `N` parameters (tagged `"arg"`), the trailing `K` of which are
immediately followed by their own defaults in column order and all column
offsets pairwise distinct, the merger returns exactly `N` fragments in
parameter order — the first `N−K` are the bare parameters, the last `K` are
`parameter=own default`. -/
theorem printArguments_spec (A D : Nat → Doc) (args defaults : List PyVal)
    (hK : defaults.length ≤ args.length)
    (hargs : ∀ x ∈ args, astTypeD x = "arg")
    (hdefs : ∀ x ∈ defaults, astTypeD x ≠ "arg")
    (hM : (args.take (args.length - defaults.length) ++
        pairUp (args.drop (args.length - defaults.length)) defaults).Pairwise colLt) :
    printArguments (fun i => .ok (A i)) (fun i => .ok (D i)) args defaults =
      .ok ((List.range (args.length - defaults.length)).map (fun j => Doc.concat [A j]) ++
        (List.range defaults.length).map (fun j =>
          Doc.concat [A (args.length - defaults.length + j), Doc.text "=", D j])) := by
  have hperm : List.Perm (args ++ defaults)
      (args.take (args.length - defaults.length) ++
        pairUp (args.drop (args.length - defaults.length)) defaults) := by
    conv_lhs => rw [← List.take_append_drop (args.length - defaults.length) args]
    rw [List.append_assoc]
    exact List.Perm.append_left _ (pairUp_perm _ _).symm
  have hsort := sortByCol_eq_of_sorted _ _ hperm hM
  unfold printArguments
  rw [hsort]
  have hhead : ∀ x,
      (pairUp (args.drop (args.length - defaults.length)) defaults).head? = some x →
        astTypeD x = "arg" := by
    intro x hx
    rcases hdrop : args.drop (args.length - defaults.length) with _ | ⟨a, as⟩
    · have hlen0 : defaults.length = 0 := by
        have hlen := congrArg List.length hdrop
        simp only [List.length_drop, List.length_nil] at hlen
        omega
      have hdef0 : defaults = [] := List.length_eq_zero.mp hlen0
      rw [hdrop, hdef0] at hx
      simp [pairUp] at hx
    · rw [hdrop] at hx
      have hax : x = a := by
        cases defaults with
        | nil =>
          simp [pairUp] at hx
          exact hx.symm
        | cons d ds =>
          simp [pairUp] at hx
          exact hx.symm
      subst hax
      have hmem : x ∈ args.drop (args.length - defaults.length) := by
        rw [hdrop]
        exact List.mem_cons_self x as
      exact hargs x (List.mem_of_mem_drop hmem)
  rw [mergeWalk_args_front A D _ _ 0 0 (fun x hx => hargs x (List.mem_of_mem_take hx)) hhead]
  have hdlen : (args.drop (args.length - defaults.length)).length = defaults.length := by
    simp only [List.length_drop]
    omega
  rw [mergeWalk_pairs A D _ defaults _ 0 hdlen hdefs]
  have htlen : (args.take (args.length - defaults.length)).length =
      args.length - defaults.length := by
    simp only [List.length_take]
    omega
  simp [htlen, hdlen]

/- ### Claims -/

/-- Claim C1: for every parameter list with `N` positional parameters (tagged
`"arg"`) of which the trailing `K` (`K ≤ N`) carry defaults — each default
sitting between its own parameter and the next in column order, all column
offsets pairwise distinct — the argument merger (sort parameters and
defaults together by ascending column offset, then walk with two independent
cursors) returns exactly `N` document fragments in parameter order: the
first `N − K` are the bare parameter fragments (no `"="`), and the last `K`
are the parameter fragment followed by `"="` and that parameter's own
default; a parameter with no default is never paired with a later
parameter's default. -/
theorem claim_C1_argument_merger (A D : Nat → Doc) (args defaults : List PyVal)
    (hK : defaults.length ≤ args.length)
    (hargs : ∀ x ∈ args, astTypeD x = "arg")
    (hdefs : ∀ x ∈ defaults, astTypeD x ≠ "arg")
    (hM : (args.take (args.length - defaults.length) ++
        pairUp (args.drop (args.length - defaults.length)) defaults).Pairwise colLt) :
    printArguments (fun i => .ok (A i)) (fun i => .ok (D i)) args defaults =
      .ok ((List.range (args.length - defaults.length)).map (fun j => Doc.concat [A j]) ++
        (List.range defaults.length).map (fun j =>
          Doc.concat [A (args.length - defaults.length + j), Doc.text "=", D j])) :=
  printArguments_spec A D args defaults hK hargs hdefs hM

/-- Witness for C1: three parameters `a`, `b`, `c` at columns 0, 3, 8, the
trailing two carrying defaults at columns 5 and 10; the merger pairs `b`
with the first default and `c` with the second. -/
theorem claim_C1_argument_merger_witness :
    ([PyVal.vnode "Num" [("col_offset", PyVal.vint 5)],
      PyVal.vnode "Num" [("col_offset", PyVal.vint 10)]].length ≤
        [PyVal.vnode "arg" [("arg", PyVal.vstr "a"), ("col_offset", PyVal.vint 0)],
         PyVal.vnode "arg" [("arg", PyVal.vstr "b"), ("col_offset", PyVal.vint 3)],
         PyVal.vnode "arg" [("arg", PyVal.vstr "c"), ("col_offset", PyVal.vint 8)]].length) ∧
    printArguments (fun i => .ok (.text (toString i))) (fun i => .ok (.text (toString (i + 10))))
      [PyVal.vnode "arg" [("arg", PyVal.vstr "a"), ("col_offset", PyVal.vint 0)],
       PyVal.vnode "arg" [("arg", PyVal.vstr "b"), ("col_offset", PyVal.vint 3)],
       PyVal.vnode "arg" [("arg", PyVal.vstr "c"), ("col_offset", PyVal.vint 8)]]
      [PyVal.vnode "Num" [("col_offset", PyVal.vint 5)],
       PyVal.vnode "Num" [("col_offset", PyVal.vint 10)]] =
      .ok [Doc.concat [Doc.text "0"],
        Doc.concat [Doc.text "1", Doc.text "=", Doc.text "10"],
        Doc.concat [Doc.text "2", Doc.text "=", Doc.text "11"]] := by
  constructor
  · decide
  · have h := claim_C1_argument_merger
      (fun i => Doc.text (toString i)) (fun i => Doc.text (toString (i + 10)))
      [PyVal.vnode "arg" [("arg", PyVal.vstr "a"), ("col_offset", PyVal.vint 0)],
       PyVal.vnode "arg" [("arg", PyVal.vstr "b"), ("col_offset", PyVal.vint 3)],
       PyVal.vnode "arg" [("arg", PyVal.vstr "c"), ("col_offset", PyVal.vint 8)]]
      [PyVal.vnode "Num" [("col_offset", PyVal.vint 5)],
       PyVal.vnode "Num" [("col_offset", PyVal.vint 10)]]
      (by decide) (by decide) (by decide)
      (by decide)
    exact h

/-- Claim C9: before tag dispatch, the printer returns the empty-string
fragment for a null/absent node and returns a plain-string node verbatim; in
neither case is `UnsupportedNodeKind` raised. -/
theorem claim_C9_null_and_string_nodes :
    (∀ parent, genericPrint parent PyVal.null = .ok (Doc.text "")) ∧
    (∀ parent s, genericPrint parent (PyVal.vstr s) = .ok (Doc.text s)) := by
  constructor
  · intro parent
    rw [genericPrint.eq_def]
  · intro parent s
    rw [genericPrint.eq_def]

/-- Claim C8: the printer is deterministic and pure — the fragment it
returns is a function of the node's subtree and of the parent relationship
only through the parent's tag (the only part of the path the dispatch
consults): printing the same node under any two parents with equal tags
yields structurally identical results. -/
theorem claim_C8_purity (p q n : PyVal) (h : astTypeD p = astTypeD q) :
    genericPrint p n = genericPrint q n := by
  conv_lhs => rw [genericPrint.eq_def]
  conv_rhs => rw [genericPrint.eq_def]
  simp only [h]

/-- Witness for C8: two different parents with the same tag `"List"` give
identical fragments for a tuple node. -/
theorem claim_C8_purity_witness :
    astTypeD (PyVal.vnode "List" []) = astTypeD (PyVal.vnode "List" [("x", PyVal.vint 3)]) ∧
    genericPrint (PyVal.vnode "List" []) (PyVal.vnode "Tuple" [("elts", PyVal.vlist [])]) =
      genericPrint (PyVal.vnode "List" [("x", PyVal.vint 3)])
        (PyVal.vnode "Tuple" [("elts", PyVal.vlist [])]) :=
  ⟨rfl, claim_C8_purity _ _ _ rfl⟩

/-- Claim C5: the printer raises the single error kind
`UnsupportedNodeKind` exactly at tag dispatch: a node whose tag is absent
from the mapping raises it (synchronously, producing no output at all — the
`Except` result is all-or-nothing by construction); every error the printer
can produce is of this one kind (it is never caught or retried internally,
the `Except` bind only propagates it); and other conditions such as an
empty optional sequence (a `ClassDef` with no bases) yield a normal
fragment, never an error. -/
theorem claim_C5_single_error_kind :
    (∀ parent t fields, t ∉ supportedTags →
      genericPrint parent (PyVal.vnode t fields) =
        .error (.unsupportedNodeKind (some t))) ∧
    (∀ parent n e, genericPrint parent n = Except.error e →
      ∃ t, e = PrintError.unsupportedNodeKind t) ∧
    (∀ parent fields, getField (PyVal.vnode "ClassDef" fields) "bases" = PyVal.vlist [] →
      getField (PyVal.vnode "ClassDef" fields) "body" = PyVal.vlist [] →
      genericPrint parent (PyVal.vnode "ClassDef" fields) =
        .ok (Doc.concat [Doc.text "class ",
          Doc.text (asStr (getField (PyVal.vnode "ClassDef" fields) "name")),
          Doc.concat [], Doc.text ":",
          Doc.indent (Doc.concat [Doc.line, Doc.concat []])])) := by
  refine ⟨?_, ?_, ?_⟩
  · intro parent t fields ht
    simp only [supportedTags, List.mem_cons, List.not_mem_nil, or_false, not_or] at ht
    obtain ⟨h1, h2, h3, h4, h5, h6, h7, h8, h9, h10, h11, h12, h13, h14, h15, h16, h17, h18, h19, h20, h21, h22, h23, h24, h25, h26, h27, h28, h29, h30, h31, h32, h33, h34, h35, h36, h37, h38, h39, h40⟩ := ht
    rw [genericPrint.eq_def]
    simp [h1, h2, h3, h4, h5, h6, h7, h8, h9, h10, h11, h12, h13, h14, h15, h16, h17, h18, h19, h20, h21, h22, h23, h24, h25, h26, h27, h28, h29, h30, h31, h32, h33, h34, h35, h36, h37, h38, h39, h40]
  · intro parent n e h
    cases e with
    | unsupportedNodeKind t => exact ⟨t, rfl⟩
  · intro parent fields hbases hbody
    rw [genericPrint.eq_def]
    simp [hbases, hbody, asList, printList]

/-- Witness for C5: the unknown tag `"Foo"` raises `UnsupportedNodeKind`
carrying that tag. -/
theorem claim_C5_single_error_kind_witness :
    "Foo" ∉ supportedTags ∧
    genericPrint PyVal.null (PyVal.vnode "Foo" []) =
      .error (.unsupportedNodeKind (some "Foo")) :=
  ⟨by decide, claim_C5_single_error_kind.1 PyVal.null "Foo" [] (by decide)⟩

/-- Claim C10: for every `Call` node the callee text is read directly from
the `id` field of the `func` child without dispatching on that child's tag:
whatever value sits in `func` (here entirely unconstrained, so in particular
a non-bare-name callee), no `UnsupportedNodeKind` is raised for it, and the
output is the callee's `id` field, `"("`, the argument fragments joined by
`", "`, and `")"`. -/
theorem claim_C10_call_reads_id_without_dispatch (parent : PyVal)
    (fields : List (String × PyVal)) (args : List PyVal) (ds : List Doc)
    (hargs : getField (PyVal.vnode "Call" fields) "args" = PyVal.vlist args)
    (hok : printList (PyVal.vnode "Call" fields) args = .ok ds) :
    genericPrint parent (PyVal.vnode "Call" fields) =
      .ok (Doc.concat [
        Doc.text (asStr (getField (getField (PyVal.vnode "Call" fields) "func") "id")),
        Doc.text "(", join (Doc.text ", ") ds, Doc.text ")"]) := by
  rw [genericPrint.eq_def]
  simp [hargs, asList, hok]

/-- Witness for C10: a call whose callee is an `Attribute` node (not a bare
name, and `Attribute` would be dispatchable, but `func` is never
dispatched): printing succeeds, with the missing `id` read as undefined. -/
theorem claim_C10_call_reads_id_without_dispatch_witness :
    getField (PyVal.vnode "Call" [("func", PyVal.vnode "Attribute" [("attr", PyVal.vstr "m")]),
        ("args", PyVal.vlist [PyVal.vstr "1"])]) "args" = PyVal.vlist [PyVal.vstr "1"] ∧
    genericPrint PyVal.null
      (PyVal.vnode "Call" [("func", PyVal.vnode "Attribute" [("attr", PyVal.vstr "m")]),
        ("args", PyVal.vlist [PyVal.vstr "1"])]) =
      .ok (Doc.concat [Doc.text "", Doc.text "(",
        join (Doc.text ", ") [Doc.text "1"], Doc.text ")"]) := by
  constructor
  · rfl
  · have h := claim_C10_call_reads_id_without_dispatch PyVal.null
      [("func", PyVal.vnode "Attribute" [("attr", PyVal.vstr "m")]),
       ("args", PyVal.vlist [PyVal.vstr "1"])]
      [PyVal.vstr "1"] [Doc.text "1"] rfl (by simp [printList, genericPrint, getField, lookupField, asStr])
    simpa using h

/-- Claim C4: a `Tuple` node's elements are joined by `", "` and the result
is wrapped in parentheses if and only if the immediate parent node is a
`List` or a `Tuple`; under any other parent tag the same tuple renders
unparenthesized. -/
theorem claim_C4_tuple_parenthesization (ptag : String)
    (pfields fields : List (String × PyVal)) (elts : List PyVal) (ds : List Doc)
    (helts : getField (PyVal.vnode "Tuple" fields) "elts" = PyVal.vlist elts)
    (hok : printList (PyVal.vnode "Tuple" fields) elts = .ok ds) :
    genericPrint (PyVal.vnode ptag pfields) (PyVal.vnode "Tuple" fields) =
      .ok (if ptag = "List" ∨ ptag = "Tuple"
        then Doc.concat [Doc.text "(", join (Doc.text ", ") ds, Doc.text ")"]
        else join (Doc.text ", ") ds) := by
  by_cases hp : ptag = "List" ∨ ptag = "Tuple"
  · rw [genericPrint.eq_def, if_pos hp]
    rcases hp with hp | hp <;> simp [helts, asList, hok, astTypeD, hp]
  · rw [genericPrint.eq_def, if_neg hp]
    rw [not_or] at hp
    simp [helts, asList, hok, astTypeD, hp.1, hp.2]

/-- Witness for C4: the tuple `(1, 2)` under a `List` parent is
parenthesized; under an `Assign` parent it is not. -/
theorem claim_C4_tuple_parenthesization_witness :
    getField (PyVal.vnode "Tuple" [("elts", PyVal.vlist [PyVal.vstr "1", PyVal.vstr "2"])])
        "elts" = PyVal.vlist [PyVal.vstr "1", PyVal.vstr "2"] ∧
    genericPrint (PyVal.vnode "List" [])
      (PyVal.vnode "Tuple" [("elts", PyVal.vlist [PyVal.vstr "1", PyVal.vstr "2"])]) =
      .ok (Doc.concat [Doc.text "(",
        join (Doc.text ", ") [Doc.text "1", Doc.text "2"], Doc.text ")"]) ∧
    genericPrint (PyVal.vnode "Assign" [])
      (PyVal.vnode "Tuple" [("elts", PyVal.vlist [PyVal.vstr "1", PyVal.vstr "2"])]) =
      .ok (join (Doc.text ", ") [Doc.text "1", Doc.text "2"]) := by
  refine ⟨rfl, ?_, ?_⟩
  · have h := claim_C4_tuple_parenthesization "List" []
      [("elts", PyVal.vlist [PyVal.vstr "1", PyVal.vstr "2"])]
      [PyVal.vstr "1", PyVal.vstr "2"] [Doc.text "1", Doc.text "2"] rfl
      (by simp [printList, genericPrint, getField, lookupField, asStr])
    simpa using h
  · have h := claim_C4_tuple_parenthesization "Assign" []
      [("elts", PyVal.vlist [PyVal.vstr "1", PyVal.vstr "2"])]
      [PyVal.vstr "1", PyVal.vstr "2"] [Doc.text "1", Doc.text "2"] rfl
      (by simp [printList, genericPrint, getField, lookupField, asStr])
    simpa using h

/-- The `xs.map((x, i) => f(x, ys[i]))` idiom of the source: when the two
lists have equal length, mapping over the enumeration with an index lookup
into the second list is pairwise zipping. -/
theorem enumFrom_map_getD {α β γ : Type} (d : β) (g : α → β → γ) :
    ∀ (n : Nat) (xs : List α) (ys : List β), xs.length = ys.length →
      (xs.enumFrom n).map (fun p => g p.2 (ys.getD (p.1 - n) d)) = List.zipWith g xs ys
  | _, [], [], _ => by simp
  | _, [], _ :: _, h => by simp at h
  | _, _ :: _, [], h => by simp at h
  | n, x :: xs, y :: ys, h => by
    rw [List.enumFrom_cons, List.map_cons]
    have htail : (xs.enumFrom (n + 1)).map (fun p => g p.2 ((y :: ys).getD (p.1 - n) d)) =
        (xs.enumFrom (n + 1)).map (fun p => g p.2 (ys.getD (p.1 - (n + 1)) d)) := by
      refine List.map_congr_left (List.forall_mem_enumFrom.mpr fun i hi => ?_)
      simp only
      have e1 : n + 1 + i - n = i + 1 := by omega
      have e2 : n + 1 + i - (n + 1) = i := by omega
      rw [e1, e2]
      simp [List.getD_eq_getElem?_getD]
    rw [htail, enumFrom_map_getD d g (n + 1) xs ys (by simpa using h)]
    have h0 : n - n = 0 := by omega
    simp [h0]

/-- Specialisation of `enumFrom_map_getD` to `enum` (offset `0`). -/
theorem enum_map_getD {α β γ : Type} (d : β) (g : α → β → γ)
    (xs : List α) (ys : List β) (h : xs.length = ys.length) :
    xs.enum.map (fun p => g p.2 (ys.getD p.1 d)) = List.zipWith g xs ys := by
  have hgen := enumFrom_map_getD d g 0 xs ys h
  simpa [List.enum] using hgen

/-- The pair fragments of a `Compare` node as a zip. -/
theorem compare_pairs_zip (xs ys : List Doc) (h : xs.length = ys.length) :
    xs.enum.map (fun p =>
        Doc.concat [Doc.text " ", p.2, Doc.text " ", ys.getD p.1 (Doc.text "")]) =
      List.zipWith (fun o c => Doc.concat [Doc.text " ", o, Doc.text " ", c]) xs ys :=
  enum_map_getD (Doc.text "") (fun o c => Doc.concat [Doc.text " ", o, Doc.text " ", c]) xs ys h

/-- The pair fragments of a `Dict` node as a zip. -/
theorem dict_pairs_zip (xs ys : List Doc) (h : xs.length = ys.length) :
    xs.enum.map (fun p =>
        Doc.concat [Doc.softline, p.2, Doc.text ": ", ys.getD p.1 (Doc.text "")]) =
      List.zipWith (fun k v => Doc.concat [Doc.softline, k, Doc.text ": ", v]) xs ys :=
  enum_map_getD (Doc.text "") (fun k v => Doc.concat [Doc.softline, k, Doc.text ": ", v]) xs ys h

/-- `compare_pairs_zip` in the `getElem?` normal form `simp` produces. -/
theorem compare_pairs_zip' (xs ys : List Doc) (h : xs.length = ys.length) :
    xs.enum.map (fun p =>
        Doc.concat [Doc.text " ", p.2, Doc.text " ", (ys[p.1]?).getD (Doc.text "")]) =
      List.zipWith (fun o c => Doc.concat [Doc.text " ", o, Doc.text " ", c]) xs ys := by
  have hz := compare_pairs_zip xs ys h
  simpa [List.getD_eq_getElem?_getD] using hz

/-- `dict_pairs_zip` in the `getElem?` normal form `simp` produces. -/
theorem dict_pairs_zip' (xs ys : List Doc) (h : xs.length = ys.length) :
    xs.enum.map (fun p =>
        Doc.concat [Doc.softline, p.2, Doc.text ": ", (ys[p.1]?).getD (Doc.text "")]) =
      List.zipWith (fun k v => Doc.concat [Doc.softline, k, Doc.text ": ", v]) xs ys := by
  have hz := dict_pairs_zip xs ys h
  simpa [List.getD_eq_getElem?_getD] using hz

/-- Claim C6: each comparison operator tag prints as its fixed symbol, and a
`Compare` node whose operator list and comparator list have equal length
prints as the left operand's fragment followed, for each (operator,
comparator) pair in order, by a space, the operator fragment, a space, and
the comparator fragment — chained comparisons are positional, with no added
parentheses. -/
theorem claim_C6_compare_chain :
    (∀ parent fields, genericPrint parent (PyVal.vnode "Lt" fields) = .ok (Doc.text "<")) ∧
    (∀ parent fields, genericPrint parent (PyVal.vnode "LtE" fields) = .ok (Doc.text "<=")) ∧
    (∀ parent fields, genericPrint parent (PyVal.vnode "Gt" fields) = .ok (Doc.text ">")) ∧
    (∀ parent fields, genericPrint parent (PyVal.vnode "GtE" fields) = .ok (Doc.text ">=")) ∧
    (∀ parent fields, genericPrint parent (PyVal.vnode "Eq" fields) = .ok (Doc.text "==")) ∧
    (∀ parent fields, genericPrint parent (PyVal.vnode "NotEq" fields) = .ok (Doc.text "!=")) ∧
    (∀ (parent : PyVal) (fields : List (String × PyVal)) (ops comps : List PyVal)
      (dops dcomps : List Doc) (dleft : Doc),
      getField (PyVal.vnode "Compare" fields) "ops" = PyVal.vlist ops →
      getField (PyVal.vnode "Compare" fields) "comparators" = PyVal.vlist comps →
      printList (PyVal.vnode "Compare" fields) ops = .ok dops →
      printList (PyVal.vnode "Compare" fields) comps = .ok dcomps →
      genericPrint (PyVal.vnode "Compare" fields)
        (getField (PyVal.vnode "Compare" fields) "left") = .ok dleft →
      dops.length = dcomps.length →
      genericPrint parent (PyVal.vnode "Compare" fields) =
        .ok (Doc.concat (dleft :: List.zipWith
          (fun o c => Doc.concat [Doc.text " ", o, Doc.text " ", c]) dops dcomps))) := by
  refine ⟨?_, ?_, ?_, ?_, ?_, ?_, ?_⟩
  · intro parent fields
    rw [genericPrint.eq_def]
    rfl
  · intro parent fields
    rw [genericPrint.eq_def]
    rfl
  · intro parent fields
    rw [genericPrint.eq_def]
    rfl
  · intro parent fields
    rw [genericPrint.eq_def]
    rfl
  · intro parent fields
    rw [genericPrint.eq_def]
    rfl
  · intro parent fields
    rw [genericPrint.eq_def]
    rfl
  · intro parent fields ops comps dops dcomps dleft hops hcomps hdops hdcomps hleft hlen
    rw [genericPrint.eq_def]
    simp [hops, hcomps, asList, hdops, hdcomps, hleft, compare_pairs_zip' _ _ hlen]

/-- Witness for C6: the chained comparison `a < b <= c` prints as the five
fragments `a`, ` < `, `b`, ` <= `, `c` in order, rendering flat as
`"a < b <= c"` with no parentheses. -/
theorem claim_C6_compare_chain_witness :
    printList
      (PyVal.vnode "Compare"
        [("left", PyVal.vnode "Name" [("id", PyVal.vstr "a")]),
         ("ops", PyVal.vlist [PyVal.vnode "Lt" [], PyVal.vnode "LtE" []]),
         ("comparators", PyVal.vlist
           [PyVal.vnode "Name" [("id", PyVal.vstr "b")],
            PyVal.vnode "Name" [("id", PyVal.vstr "c")]])])
      [PyVal.vnode "Lt" [], PyVal.vnode "LtE" []] = .ok [Doc.text "<", Doc.text "<="] ∧
    genericPrint PyVal.null
      (PyVal.vnode "Compare"
        [("left", PyVal.vnode "Name" [("id", PyVal.vstr "a")]),
         ("ops", PyVal.vlist [PyVal.vnode "Lt" [], PyVal.vnode "LtE" []]),
         ("comparators", PyVal.vlist
           [PyVal.vnode "Name" [("id", PyVal.vstr "b")],
            PyVal.vnode "Name" [("id", PyVal.vstr "c")]])]) =
      .ok (Doc.concat [Doc.text "a",
        Doc.concat [Doc.text " ", Doc.text "<", Doc.text " ", Doc.text "b"],
        Doc.concat [Doc.text " ", Doc.text "<=", Doc.text " ", Doc.text "c"]]) ∧
    flatten (Doc.concat [Doc.text "a",
      Doc.concat [Doc.text " ", Doc.text "<", Doc.text " ", Doc.text "b"],
      Doc.concat [Doc.text " ", Doc.text "<=", Doc.text " ", Doc.text "c"]]) = "a < b <= c" := by
  refine ⟨?_, ?_, rfl⟩
  · simp [printList, genericPrint]
  · have h := claim_C6_compare_chain.2.2.2.2.2.2 PyVal.null
      [("left", PyVal.vnode "Name" [("id", PyVal.vstr "a")]),
       ("ops", PyVal.vlist [PyVal.vnode "Lt" [], PyVal.vnode "LtE" []]),
       ("comparators", PyVal.vlist
         [PyVal.vnode "Name" [("id", PyVal.vstr "b")],
          PyVal.vnode "Name" [("id", PyVal.vstr "c")]])]
      [PyVal.vnode "Lt" [], PyVal.vnode "LtE" []]
      [PyVal.vnode "Name" [("id", PyVal.vstr "b")], PyVal.vnode "Name" [("id", PyVal.vstr "c")]]
      [Doc.text "<", Doc.text "<="] [Doc.text "b", Doc.text "c"] (Doc.text "a")
      rfl rfl (by simp [printList, genericPrint, getField, lookupField, asStr]) (by simp [printList, genericPrint, getField, lookupField, asStr])
      (by simp [genericPrint, getField, lookupField, asStr]) rfl
    simpa using h

/-- Claim C7: a `Dict` node prints as a left brace, an indented comma-joined sequence
of pairs — each pair a soft break point, the key fragment, `": "`, and the
value fragment, with no space before any comma — then a closing soft break
and a right brace. -/
theorem claim_C7_dict_layout (parent : PyVal) (fields : List (String × PyVal))
    (keys values : List PyVal) (dkeys dvalues : List Doc)
    (hkeys : getField (PyVal.vnode "Dict" fields) "keys" = PyVal.vlist keys)
    (hvalues : getField (PyVal.vnode "Dict" fields) "values" = PyVal.vlist values)
    (hdk : printList (PyVal.vnode "Dict" fields) keys = .ok dkeys)
    (hdv : printList (PyVal.vnode "Dict" fields) values = .ok dvalues)
    (hlen : dkeys.length = dvalues.length) :
    genericPrint parent (PyVal.vnode "Dict" fields) =
      .ok (Doc.concat [Doc.text "\x7b",
        Doc.indent (join (Doc.text ",")
          (List.zipWith (fun k v => Doc.concat [Doc.softline, k, Doc.text ": ", v])
            dkeys dvalues)),
        Doc.softline, Doc.text "\x7d"]) := by
  rw [genericPrint.eq_def]
  simp [hkeys, hvalues, asList, hdk, hdv, dict_pairs_zip' _ _ hlen]

/-- Witness for C7: the dictionary with keys `a`, `b` and values `1`, `2`;
its flat rendering is `a: 1,b: 2` between braces — `": "` between key and
value, entries
comma-joined with no space before the comma. -/
theorem claim_C7_dict_layout_witness :
    getField (PyVal.vnode "Dict"
        [("keys", PyVal.vlist [PyVal.vstr "a", PyVal.vstr "b"]),
         ("values", PyVal.vlist [PyVal.vstr "1", PyVal.vstr "2"])]) "keys" =
      PyVal.vlist [PyVal.vstr "a", PyVal.vstr "b"] ∧
    genericPrint PyVal.null
      (PyVal.vnode "Dict"
        [("keys", PyVal.vlist [PyVal.vstr "a", PyVal.vstr "b"]),
         ("values", PyVal.vlist [PyVal.vstr "1", PyVal.vstr "2"])]) =
      .ok (Doc.concat [Doc.text "\x7b",
        Doc.indent (join (Doc.text ",")
          [Doc.concat [Doc.softline, Doc.text "a", Doc.text ": ", Doc.text "1"],
           Doc.concat [Doc.softline, Doc.text "b", Doc.text ": ", Doc.text "2"]]),
        Doc.softline, Doc.text "\x7d"]) ∧
    flatten (Doc.concat [Doc.text "\x7b",
      Doc.indent (join (Doc.text ",")
        [Doc.concat [Doc.softline, Doc.text "a", Doc.text ": ", Doc.text "1"],
         Doc.concat [Doc.softline, Doc.text "b", Doc.text ": ", Doc.text "2"]]),
      Doc.softline, Doc.text "\x7d"]) = "\x7ba: 1,b: 2\x7d" := by
  refine ⟨rfl, ?_, rfl⟩
  have h := claim_C7_dict_layout PyVal.null
    [("keys", PyVal.vlist [PyVal.vstr "a", PyVal.vstr "b"]),
     ("values", PyVal.vlist [PyVal.vstr "1", PyVal.vstr "2"])]
    [PyVal.vstr "a", PyVal.vstr "b"] [PyVal.vstr "1", PyVal.vstr "2"]
    [Doc.text "a", Doc.text "b"] [Doc.text "1", Doc.text "2"]
    rfl rfl (by simp [printList, genericPrint, getField, lookupField, asStr]) (by simp [printList, genericPrint, getField, lookupField, asStr]) rfl
  simpa using h

/-- General behaviour of the `"arguments"` printer when every group is
present: positional parameters (trailing defaults, well-ordered columns), a
truthy `vararg`, a nonempty keyword-only group (with its own trailing,
well-ordered defaults), and a truthy `kwarg`.  The emitted order is:
positional fragments, `*`+varargs, a bare `*` (emitted whenever keyword-only
parameters exist, even alongside varargs), keyword-only fragments,
`**`+kwargs — all joined by `", "` followed by a soft break opportunity. -/
theorem genericPrint_arguments_spec
    (parent : PyVal) (fields : List (String × PyVal))
    (args defaults kwonly kwdefs : List PyVal)
    (A D A2 D2 : Nat → Doc) (dva dkw : Doc)
    (hargsF : getField (PyVal.vnode "arguments" fields) "args" = PyVal.vlist args)
    (hdefsF : getField (PyVal.vnode "arguments" fields) "defaults" = PyVal.vlist defaults)
    (hkoF : getField (PyVal.vnode "arguments" fields) "kwonlyargs" = PyVal.vlist kwonly)
    (hkdF : getField (PyVal.vnode "arguments" fields) "kw_defaults" = PyVal.vlist kwdefs)
    (hva : truthy (getField (PyVal.vnode "arguments" fields) "vararg") = true)
    (hkw : truthy (getField (PyVal.vnode "arguments" fields) "kwarg") = true)
    (hkoNe : kwonly ≠ [])
    (hA : ∀ i, genericPrint (PyVal.vnode "arguments" fields)
      ((args[i]?).getD PyVal.null) = .ok (A i))
    (hD : ∀ i, genericPrint (PyVal.vnode "arguments" fields)
      ((defaults[i]?).getD PyVal.null) = .ok (D i))
    (hA2 : ∀ i, genericPrint (PyVal.vnode "arguments" fields)
      ((kwonly[i]?).getD PyVal.null) = .ok (A2 i))
    (hD2 : ∀ i, genericPrint (PyVal.vnode "arguments" fields)
      ((kwdefs[i]?).getD PyVal.null) = .ok (D2 i))
    (hdva : genericPrint (PyVal.vnode "arguments" fields)
      (getField (PyVal.vnode "arguments" fields) "vararg") = .ok dva)
    (hdkw : genericPrint (PyVal.vnode "arguments" fields)
      (getField (PyVal.vnode "arguments" fields) "kwarg") = .ok dkw)
    (hK : defaults.length ≤ args.length)
    (hargs : ∀ x ∈ args, astTypeD x = "arg")
    (hdefs : ∀ x ∈ defaults, astTypeD x ≠ "arg")
    (hM : (args.take (args.length - defaults.length) ++
        pairUp (args.drop (args.length - defaults.length)) defaults).Pairwise colLt)
    (hK2 : kwdefs.length ≤ kwonly.length)
    (hkos : ∀ x ∈ kwonly, astTypeD x = "arg")
    (hkds : ∀ x ∈ kwdefs, astTypeD x ≠ "arg")
    (hM2 : (kwonly.take (kwonly.length - kwdefs.length) ++
        pairUp (kwonly.drop (kwonly.length - kwdefs.length)) kwdefs).Pairwise colLt) :
    genericPrint parent (PyVal.vnode "arguments" fields) =
      .ok (join (Doc.concat [Doc.text ", ", Doc.softline])
        (((List.range (args.length - defaults.length)).map (fun j => Doc.concat [A j]) ++
          (List.range defaults.length).map (fun j =>
            Doc.concat [A (args.length - defaults.length + j), Doc.text "=", D j])) ++
         [Doc.concat [Doc.text "*", dva]] ++ [Doc.text "*"] ++
         ((List.range (kwonly.length - kwdefs.length)).map (fun j => Doc.concat [A2 j]) ++
          (List.range kwdefs.length).map (fun j =>
            Doc.concat [A2 (kwonly.length - kwdefs.length + j), Doc.text "=", D2 j])) ++
         [Doc.concat [Doc.text "**", dkw]])) := by
  rw [genericPrint.eq_def]
  simp [hargsF, hdefsF, hkoF, hkdF, hva, hkw, hkoNe, asList, hdva, hdkw]
  rw [funext hA, funext hD, funext hA2, funext hD2,
    printArguments_spec A D args defaults hK hargs hdefs hM,
    printArguments_spec A2 D2 kwonly kwdefs hK2 hkos hkds hM2]
  simp [List.length_pos, hkoNe, List.append_assoc]

/-- The augmented assignment of claim C3: operator `add`, target `x`,
value `1`. -/
def augAssignAddNode : PyVal :=
  PyVal.vnode "AugAssign"
    [("target", PyVal.vnode "Name" [("id", PyVal.vstr "x")]),
     ("op", PyVal.vnode "Add" []),
     ("value", PyVal.vnode "Num" [("n", PyVal.vnode "int" [("n", PyVal.vint 1)])])]

/-- Counterexample to claim C3 as stated: the printer emits the literal
`"= "` (with a trailing space) between the operator and the value, so the
flat output of `x += 1` is `"x += 1"`, not exactly `"x +=1"`. -/
theorem claim_C3_counterexample :
    genericPrint PyVal.null augAssignAddNode =
      .ok (Doc.concat [Doc.text "x", Doc.text " ", Doc.text "+",
        Doc.text "= ", Doc.text "1"]) ∧
    flatten (Doc.concat [Doc.text "x", Doc.text " ", Doc.text "+",
      Doc.text "= ", Doc.text "1"]) ≠ "x +=1" := by
  constructor
  · simp [genericPrint, augAssignAddNode, getField, lookupField, asStr, jsTemplate]
    rfl
  · decide

/-- Claim C3 (amended): the augmented assignment with operator `add`, target
`x` and value `1` prints as the fragments `x`, `" "`, `"+"`, `"= "`, `1` —
a space before the operator symbol, no space between the operator symbol
and the `=`, and a space between the `=` and the value — rendering flat as
exactly `"x += 1"`. -/
theorem claim_C3_augassign_spacing (parent : PyVal) :
    genericPrint parent augAssignAddNode =
      .ok (Doc.concat [Doc.text "x", Doc.text " ", Doc.text "+",
        Doc.text "= ", Doc.text "1"]) ∧
    flatten (Doc.concat [Doc.text "x", Doc.text " ", Doc.text "+",
      Doc.text "= ", Doc.text "1"]) = "x += 1" := by
  constructor
  · simp [genericPrint, augAssignAddNode, getField, lookupField, asStr, jsTemplate]
    rfl
  · rfl

/-- The parameter list of claim C2's counterexample and witness: positional
`a` with no default, variadic-positional `args`, keyword-only `k` with no
default, variadic-keyword `kw` — i.e. `def f(a, *args, k, **kw)`. -/
def argumentsAllGroupsNode : PyVal :=
  PyVal.vnode "arguments"
    [("args", PyVal.vlist [PyVal.vnode "arg" [("arg", PyVal.vstr "a"), ("col_offset", PyVal.vint 0)]]),
     ("defaults", PyVal.vlist []),
     ("vararg", PyVal.vnode "arg" [("arg", PyVal.vstr "args"), ("col_offset", PyVal.vint 3)]),
     ("kwonlyargs", PyVal.vlist [PyVal.vnode "arg" [("arg", PyVal.vstr "k"), ("col_offset", PyVal.vint 10)]]),
     ("kw_defaults", PyVal.vlist []),
     ("kwarg", PyVal.vnode "arg" [("arg", PyVal.vstr "kw"), ("col_offset", PyVal.vint 15)])]

/-- Counterexample to claim C2 as stated: with a variadic-positional
parameter present *and* keyword-only parameters present, the printer still
pushes a bare `"*"` fragment between `*`+varargs and the keyword-only group
(the claim asserts the bare `*` appears only when varargs are absent), so
the emitted group sequence differs from the claimed one. -/
theorem claim_C2_counterexample :
    genericPrint PyVal.null argumentsAllGroupsNode =
      .ok (join (Doc.concat [Doc.text ", ", Doc.softline])
        [Doc.concat [Doc.text "a"], Doc.concat [Doc.text "*", Doc.text "args"], Doc.text "*",
         Doc.concat [Doc.text "k"], Doc.concat [Doc.text "**", Doc.text "kw"]]) ∧
    (Except.ok (join (Doc.concat [Doc.text ", ", Doc.softline])
        [Doc.concat [Doc.text "a"], Doc.concat [Doc.text "*", Doc.text "args"], Doc.text "*",
         Doc.concat [Doc.text "k"], Doc.concat [Doc.text "**", Doc.text "kw"]]) :
      Except PrintError Doc) ≠
      .ok (join (Doc.concat [Doc.text ", ", Doc.softline])
        [Doc.concat [Doc.text "a"], Doc.concat [Doc.text "*", Doc.text "args"],
         Doc.concat [Doc.text "k"], Doc.concat [Doc.text "**", Doc.text "kw"]]) := by
  constructor
  · have h := genericPrint_arguments_spec PyVal.null
      [("args", PyVal.vlist [PyVal.vnode "arg" [("arg", PyVal.vstr "a"), ("col_offset", PyVal.vint 0)]]),
       ("defaults", PyVal.vlist []),
       ("vararg", PyVal.vnode "arg" [("arg", PyVal.vstr "args"), ("col_offset", PyVal.vint 3)]),
       ("kwonlyargs", PyVal.vlist [PyVal.vnode "arg" [("arg", PyVal.vstr "k"), ("col_offset", PyVal.vint 10)]]),
       ("kw_defaults", PyVal.vlist []),
       ("kwarg", PyVal.vnode "arg" [("arg", PyVal.vstr "kw"), ("col_offset", PyVal.vint 15)])]
      [PyVal.vnode "arg" [("arg", PyVal.vstr "a"), ("col_offset", PyVal.vint 0)]] []
      [PyVal.vnode "arg" [("arg", PyVal.vstr "k"), ("col_offset", PyVal.vint 10)]] []
      (fun i => if i = 0 then Doc.text "a" else Doc.text "") (fun _ => Doc.text "")
      (fun i => if i = 0 then Doc.text "k" else Doc.text "") (fun _ => Doc.text "")
      (Doc.text "args") (Doc.text "kw")
      rfl rfl rfl rfl rfl rfl (by simp)
      (by
        intro i
        cases i with
        | zero => simp [genericPrint, getField, lookupField, asStr]
        | succ j => simp [genericPrint])
      (by
        intro i
        simp [genericPrint])
      (by
        intro i
        cases i with
        | zero => simp [genericPrint, getField, lookupField, asStr]
        | succ j => simp [genericPrint])
      (by
        intro i
        simp [genericPrint])
      (by simp [genericPrint, getField, lookupField, asStr])
      (by simp [genericPrint, getField, lookupField, asStr])
      (by decide) (by decide) (by decide) (by decide)
      (by decide) (by decide) (by decide) (by decide)
    simpa [argumentsAllGroupsNode] using h
  · simp [join, List.intersperse]

/-- Claim C2 (amended): for every function-parameter list combining
positional parameters (with well-ordered trailing defaults), a
variadic-positional parameter, keyword-only parameters (with their own
well-ordered trailing defaults), and a variadic-keyword parameter, the
printed list emits the groups in the fixed order: positionals, `*`+varargs,
then a bare `*` (which is emitted whenever keyword-only parameters exist,
even though varargs are present), then the keyword-only group, then
`**`+kwargs — with all fragments joined by `", "` followed by a soft break
opportunity. -/
theorem claim_C2_parameter_groups
    (parent : PyVal) (fields : List (String × PyVal))
    (args defaults kwonly kwdefs : List PyVal)
    (A D A2 D2 : Nat → Doc) (dva dkw : Doc)
    (hargsF : getField (PyVal.vnode "arguments" fields) "args" = PyVal.vlist args)
    (hdefsF : getField (PyVal.vnode "arguments" fields) "defaults" = PyVal.vlist defaults)
    (hkoF : getField (PyVal.vnode "arguments" fields) "kwonlyargs" = PyVal.vlist kwonly)
    (hkdF : getField (PyVal.vnode "arguments" fields) "kw_defaults" = PyVal.vlist kwdefs)
    (hva : truthy (getField (PyVal.vnode "arguments" fields) "vararg") = true)
    (hkw : truthy (getField (PyVal.vnode "arguments" fields) "kwarg") = true)
    (hkoNe : kwonly ≠ [])
    (hA : ∀ i, genericPrint (PyVal.vnode "arguments" fields)
      ((args[i]?).getD PyVal.null) = .ok (A i))
    (hD : ∀ i, genericPrint (PyVal.vnode "arguments" fields)
      ((defaults[i]?).getD PyVal.null) = .ok (D i))
    (hA2 : ∀ i, genericPrint (PyVal.vnode "arguments" fields)
      ((kwonly[i]?).getD PyVal.null) = .ok (A2 i))
    (hD2 : ∀ i, genericPrint (PyVal.vnode "arguments" fields)
      ((kwdefs[i]?).getD PyVal.null) = .ok (D2 i))
    (hdva : genericPrint (PyVal.vnode "arguments" fields)
      (getField (PyVal.vnode "arguments" fields) "vararg") = .ok dva)
    (hdkw : genericPrint (PyVal.vnode "arguments" fields)
      (getField (PyVal.vnode "arguments" fields) "kwarg") = .ok dkw)
    (hK : defaults.length ≤ args.length)
    (hargs : ∀ x ∈ args, astTypeD x = "arg")
    (hdefs : ∀ x ∈ defaults, astTypeD x ≠ "arg")
    (hM : (args.take (args.length - defaults.length) ++
        pairUp (args.drop (args.length - defaults.length)) defaults).Pairwise colLt)
    (hK2 : kwdefs.length ≤ kwonly.length)
    (hkos : ∀ x ∈ kwonly, astTypeD x = "arg")
    (hkds : ∀ x ∈ kwdefs, astTypeD x ≠ "arg")
    (hM2 : (kwonly.take (kwonly.length - kwdefs.length) ++
        pairUp (kwonly.drop (kwonly.length - kwdefs.length)) kwdefs).Pairwise colLt) :
    genericPrint parent (PyVal.vnode "arguments" fields) =
      .ok (join (Doc.concat [Doc.text ", ", Doc.softline])
        (((List.range (args.length - defaults.length)).map (fun j => Doc.concat [A j]) ++
          (List.range defaults.length).map (fun j =>
            Doc.concat [A (args.length - defaults.length + j), Doc.text "=", D j])) ++
         [Doc.concat [Doc.text "*", dva]] ++ [Doc.text "*"] ++
         ((List.range (kwonly.length - kwdefs.length)).map (fun j => Doc.concat [A2 j]) ++
          (List.range kwdefs.length).map (fun j =>
            Doc.concat [A2 (kwonly.length - kwdefs.length + j), Doc.text "=", D2 j])) ++
         [Doc.concat [Doc.text "**", dkw]])) :=
  genericPrint_arguments_spec parent fields args defaults kwonly kwdefs A D A2 D2 dva dkw
    hargsF hdefsF hkoF hkdF hva hkw hkoNe hA hD hA2 hD2 hdva hdkw
    hK hargs hdefs hM hK2 hkos hkds hM2

/-- Witness for C2: the parameter list `(a, *args, k, **kw)` prints the five
groups `a`, `*args`, `*`, `k`, `**kw` in order, joined by `", "` plus a soft
break. -/
theorem claim_C2_parameter_groups_witness :
    truthy (getField argumentsAllGroupsNode "vararg") = true ∧
    genericPrint PyVal.null argumentsAllGroupsNode =
      .ok (join (Doc.concat [Doc.text ", ", Doc.softline])
        [Doc.concat [Doc.text "a"], Doc.concat [Doc.text "*", Doc.text "args"], Doc.text "*",
         Doc.concat [Doc.text "k"], Doc.concat [Doc.text "**", Doc.text "kw"]]) := by
  constructor
  · rfl
  · have h := claim_C2_parameter_groups PyVal.null
      [("args", PyVal.vlist [PyVal.vnode "arg" [("arg", PyVal.vstr "a"), ("col_offset", PyVal.vint 0)]]),
       ("defaults", PyVal.vlist []),
       ("vararg", PyVal.vnode "arg" [("arg", PyVal.vstr "args"), ("col_offset", PyVal.vint 3)]),
       ("kwonlyargs", PyVal.vlist [PyVal.vnode "arg" [("arg", PyVal.vstr "k"), ("col_offset", PyVal.vint 10)]]),
       ("kw_defaults", PyVal.vlist []),
       ("kwarg", PyVal.vnode "arg" [("arg", PyVal.vstr "kw"), ("col_offset", PyVal.vint 15)])]
      [PyVal.vnode "arg" [("arg", PyVal.vstr "a"), ("col_offset", PyVal.vint 0)]] []
      [PyVal.vnode "arg" [("arg", PyVal.vstr "k"), ("col_offset", PyVal.vint 10)]] []
      (fun i => if i = 0 then Doc.text "a" else Doc.text "") (fun _ => Doc.text "")
      (fun i => if i = 0 then Doc.text "k" else Doc.text "") (fun _ => Doc.text "")
      (Doc.text "args") (Doc.text "kw")
      rfl rfl rfl rfl rfl rfl (by simp)
      (by
        intro i
        cases i with
        | zero => simp [genericPrint, getField, lookupField, asStr]
        | succ j => simp [genericPrint])
      (by
        intro i
        simp [genericPrint])
      (by
        intro i
        cases i with
        | zero => simp [genericPrint, getField, lookupField, asStr]
        | succ j => simp [genericPrint])
      (by
        intro i
        simp [genericPrint])
      (by simp [genericPrint, getField, lookupField, asStr])
      (by simp [genericPrint, getField, lookupField, asStr])
      (by decide) (by decide) (by decide) (by decide)
      (by decide) (by decide) (by decide) (by decide)
    simpa [argumentsAllGroupsNode] using h
